import Mathlib

/-!
Shallow embedding of the greydns reconciliation and ownership-arbitration
engine (math280h/greydns).

The embedding covers:
 * the ownership-tag convention (comment marker plus namespace/name),
 * the record cache (a string-keyed map, modelled as an association list),
 * the event handlers `HandleAnnotations` / `HandleDeletions` from
   internal/records/dns.go together with the legacy Cloudflare helper
   functions they call (`CheckIfZoneExists`, `CreateRecord`,
   `CleanupRecords`, `RefreshRecordsCache` in internal/providers/cf/main.go),
 * the provider-interface Cloudflare adapter methods
   (`GetRecords`, `RefreshRecordsCache`, `CreateRecord`, `UpdateRecord`,
   `CleanupRecords`, `convertToGenericRecord`) from the same file, and the
   cache-refresh retry step of cmd/main.go.

Remote Cloudflare API behaviour is abstracted by a `Backend` oracle that
decides, per call, whether the HTTP call succeeds; every provider API call
the code would issue is recorded in an explicit call trace so that claims
about "zero provider calls" are about the actual sequence of calls.
Go maps are modelled as association lists (`lookupKV`/`insertKV`/`eraseKV`);
Go map iteration is modelled as iteration over the list.
-/

/-- The fixed ownership-comment marker used by greydns. -/
def greydnsMarker : String := "[greydns - Do not manually edit]"

/-- Ownership tag for a resource: marker ++ namespace ++ "/" ++ name.
This is the comment written on created "A" records and compared against
on every ownership check (dns.go and cf/main.go build it inline). -/
def tagFor (ns sname : String) : String := greydnsMarker ++ ns ++ "/" ++ sname

/-- The comment filter regexp of cf/main.go
(an anchored match of the marker followed by any characters; in Go RE2 the
dot does not match a newline and the anchors span the whole string, so a
string matches exactly when it starts with the marker and has no newline). -/
def commentMatches (s : String) : Bool :=
  greydnsMarker.data.isPrefixOf s.data && !(s.data.contains '\n')

/-- Lookup in a Go map modelled as an association list. -/
def lookupKV {α : Type} (l : List (String × α)) (k : String) : Option α :=
  (l.find? (fun e => e.1 == k)).map (fun e => e.2)

/-- Go map assignment m[k] = v (replaces any previous binding of k). -/
def insertKV {α : Type} (l : List (String × α)) (k : String) (v : α) :
    List (String × α) :=
  (k, v) :: l.filter (fun e => e.1 != k)

/-- Go map deletion delete(m, k). -/
def eraseKV {α : Type} (l : List (String × α)) (k : String) :
    List (String × α) :=
  l.filter (fun e => e.1 != k)

/-- Go map read with the zero value for missing keys (m[k] on a string map). -/
def getAnn (l : List (String × String)) (k : String) : String :=
  (lookupKV l k).getD ""

/-- A record as returned by the Cloudflare API (dns.RecordResponse).
The response carries no zone identifier; `rtype` is the record type. -/
structure RecordResponse where
  id : String
  name : String
  rtype : String
  content : String
  comment : String
  proxied : Bool
  ttl : Int
deriving DecidableEq

/-- The provider-independent record of internal/types (types.DNSRecord). -/
structure DNSRecord where
  id : String
  name : String
  rtype : String
  content : String
  ttl : Int
  comment : String
  proxied : Option Bool
  zoneID : String
deriving DecidableEq

/-- A service resource: namespace, name and its annotation map. -/
structure Service where
  ns : String
  sname : String
  annots : List (String × String)
deriving DecidableEq

/-- The configuration values the reconciliation path reads.
`recordTTL` is the parsed value of the required "record-ttl" entry
(none models a value strconv.Atoi rejects, on which dns.go calls
log.Fatal); "record-type" and "proxy-enabled" are read inside the cf
CreateRecord/UpdateRecord helpers. -/
structure Config where
  recordTTL : Option Int
  recordType : String
  proxyEnabled : Bool

/-- Success oracles for the remote Cloudflare HTTP API, one per call kind:
whether a zone get / record listing / record creation / record update /
record deletion succeeds, and the record id the backend assigns on a
successful creation. -/
structure Backend where
  zoneGetOk : String → Bool
  listOk : String → Bool
  createOk : Bool
  updateOk : Bool
  deleteOk : String → Bool
  freshId : String

/-- One provider API call, as issued by the code (the trace of remote calls). -/
inductive ProviderCall where
  | zoneGet (zoneID : String)
  | recordList (zoneID : String)
  | recordCreate (zoneID : String) (req : RecordResponse)
  | recordUpdate (recordID zoneID : String) (req : RecordResponse)
  | recordDelete (recordID zoneID : String)
deriving DecidableEq

/-- Whether a provider call mutates provider state (create/update/delete). -/
def isMutation : ProviderCall → Bool
  | ProviderCall.recordCreate _ _ => true
  | ProviderCall.recordUpdate _ _ _ => true
  | ProviderCall.recordDelete _ _ => true
  | _ => false

/-- Whether a provider call is a record creation. -/
def isCreate : ProviderCall → Bool
  | ProviderCall.recordCreate _ _ => true
  | _ => false

/-- Whether a provider call is a record update. -/
def isUpdate : ProviderCall → Bool
  | ProviderCall.recordUpdate _ _ _ => true
  | _ => false

/-- Whether a provider call is a record deletion. -/
def isDelete : ProviderCall → Bool
  | ProviderCall.recordDelete _ _ => true
  | _ => false

/-- An event emitted to the cluster event system (utils.Recorder.Eventf). -/
inductive EmittedEvent where
  | duplicateDomain (ns sname : String)
deriving DecidableEq

/-- The mutable state the legacy handlers touch: the record cache
(domain → dns.RecordResponse), the set of records that exist at the
provider (paired with the zone they live in), and the zone name → id
table. The handlers never write the zone table; keeping it in the state
lets the theorems state that. -/
structure EngineState where
  cache : List (String × RecordResponse)
  store : List (String × RecordResponse)
  zones : List (String × String)
deriving DecidableEq

/-- Result of running one event handler: the state afterwards, the provider
calls issued, and the cluster events emitted. -/
structure Outcome where
  state : EngineState
  calls : List ProviderCall
  events : List EmittedEvent
deriving DecidableEq

/-- cf.CheckIfZoneExists (legacy, cf/main.go): reads the zone id from the
table (Go zero value "" when the name is absent) and then always performs
a remote zone get with that id; returns the zone (its id) on success. -/
def CheckIfZoneExists (b : Backend) (zonesToNames : List (String × String))
    (name : String) : Option String × List ProviderCall :=
  let zid := (lookupKV zonesToNames name).getD ""
  if b.zoneGetOk zid then (some zid, [ProviderCall.zoneGet zid])
  else (none, [ProviderCall.zoneGet zid])

/-- The record payload cf.CreateRecord builds from the configured record
type (cf/main.go): an "A" record carries the full ownership tag in its
comment, a "CNAME" record carries only the bare marker, any other
configured type is rejected before any API call. -/
def recordParamFor (cfg : Config) (name dest : String) (ttl : Int)
    (svc : Service) : Option RecordResponse :=
  if cfg.recordType = "A" then
    some { id := "", name := name, rtype := "A", content := dest,
           comment := tagFor svc.ns svc.sname, proxied := cfg.proxyEnabled,
           ttl := ttl }
  else if cfg.recordType = "CNAME" then
    some { id := "", name := name, rtype := "CNAME", content := dest,
           comment := greydnsMarker, proxied := cfg.proxyEnabled,
           ttl := ttl }
  else none

/-- cf.CreateRecord as invoked from HandleAnnotations (records/dns.go):
builds the record per the configured record type and issues one backend
create call; a successful backend call echoes the request with the
assigned record id. (The call site in dns.go passes no record cache, so
no cleanup pass runs on this path.) -/
def CreateRecord (b : Backend) (cfg : Config) (name dest : String)
    (ttl : Int) (zid : String) (svc : Service) :
    Option RecordResponse × List ProviderCall :=
  match recordParamFor cfg name dest ttl svc with
  | none => (none, [])
  | some req =>
    if b.createOk then
      (some { req with id := b.freshId }, [ProviderCall.recordCreate zid req])
    else (none, [ProviderCall.recordCreate zid req])

/-- records.HandleAnnotations (dns.go): the add/update event handler.
Gate on the "greydns.io/dns" annotation, resolve the zone, then either
create the record for the desired domain and cache it on success, or
arbitrate ownership of the existing cached record. `none` models the
log.Fatal on an unparseable "record-ttl" value. -/
def HandleAnnotations (b : Backend) (cfg : Config) (dest : String)
    (svc : Service) (st : EngineState) : Option Outcome :=
  if getAnn svc.annots "greydns.io/dns" = "true" then
    match CheckIfZoneExists b st.zones (getAnn svc.annots "greydns.io/zone") with
    | (none, zc) => some ⟨st, zc, []⟩
    | (some zid, zc) =>
      let domain := getAnn svc.annots "greydns.io/domain"
      match lookupKV st.cache domain with
      | none =>
        match cfg.recordTTL with
        | none => none
        | some ttl =>
          match CreateRecord b cfg domain dest ttl zid svc with
          | (none, calls) => some ⟨st, zc ++ calls, []⟩
          | (some resp, calls) =>
            some ⟨⟨insertKV st.cache domain resp, (zid, resp) :: st.store,
                   st.zones⟩,
                  zc ++ calls, []⟩
      | some r =>
        if r.comment ≠ tagFor svc.ns svc.sname then
          some ⟨st, zc, [EmittedEvent.duplicateDomain svc.ns svc.sname]⟩
        else
          some ⟨st, zc, []⟩
  else
    some ⟨st, [], []⟩

/-- Removal of a record from the provider store by record id
(the effect of a successful cf.DeleteRecord). -/
def storeRemoveId (p : List (String × RecordResponse)) (rid : String) :
    List (String × RecordResponse) :=
  p.filter (fun q => q.2.id != rid)

/-- records.HandleDeletions (dns.go): the delete event handler.
Gate on the annotation, resolve the zone, and delete the cached record for
the desired domain only when its comment equals this resource's ownership
tag; the cache entry is evicted only when the provider delete succeeds. -/
def HandleDeletions (b : Backend) (svc : Service) (st : EngineState) :
    Outcome :=
  if getAnn svc.annots "greydns.io/dns" = "true" then
    match CheckIfZoneExists b st.zones (getAnn svc.annots "greydns.io/zone") with
    | (none, zc) => ⟨st, zc, []⟩
    | (some zid, zc) =>
      let domain := getAnn svc.annots "greydns.io/domain"
      match lookupKV st.cache domain with
      | some r =>
        if r.comment ≠ tagFor svc.ns svc.sname then ⟨st, zc, []⟩
        else if b.deleteOk r.id then
          ⟨⟨eraseKV st.cache domain, storeRemoveId st.store r.id, st.zones⟩,
           zc ++ [ProviderCall.recordDelete r.id zid], []⟩
        else
          ⟨st, zc ++ [ProviderCall.recordDelete r.id zid], []⟩
      | none => ⟨st, zc, []⟩
  else ⟨st, [], []⟩

/-- cf.CleanupRecords (legacy, cf/main.go): iterate over the cache entries
(the `todo` list is the iteration snapshot); every record whose comment
equals this service's ownership tag and whose name is not the service's
current desired domain is deleted at the provider (the error, if any, is
only logged) and then unconditionally removed from the cache. -/
def CleanupRecords (b : Backend) (svc : Service) (zid : String) :
    List (String × RecordResponse) → EngineState →
    EngineState × List ProviderCall
  | [], st => (st, [])
  | (_, r) :: rest, st =>
    if r.comment = tagFor svc.ns svc.sname then
      if getAnn svc.annots "greydns.io/domain" = r.name then
        CleanupRecords b svc zid rest st
      else
        let st' : EngineState :=
          ⟨eraseKV st.cache r.name,
           if b.deleteOk r.id then storeRemoveId st.store r.id else st.store,
           st.zones⟩
        let res := CleanupRecords b svc zid rest st'
        (res.1, ProviderCall.recordDelete r.id zid :: res.2)
    else CleanupRecords b svc zid rest st

/-- The records of one zone as the Cloudflare listing returns them. -/
def zoneListing (p : List (String × RecordResponse)) (zid : String) :
    List RecordResponse :=
  (p.filter (fun q => q.1 == zid)).map (fun q => q.2)

/-- cf.RefreshRecordsCache (legacy, cf/main.go): rebuild the whole cache
from the provider, zone by zone, admitting only records whose comment
matches the ownership pattern; a listing failure is log.Fatal (modelled
as `none`). -/
def RefreshRecordsCacheLegacy (b : Backend)
    (p : List (String × RecordResponse)) :
    List (String × String) → List (String × RecordResponse) →
    Option (List (String × RecordResponse))
  | [], acc => some acc
  | (_, zid) :: rest, acc =>
    if b.listOk zid then
      RefreshRecordsCacheLegacy b p rest
        ((zoneListing p zid).foldl
          (fun a rr => if commentMatches rr.comment then insertKV a rr.name rr
                       else a) acc)
    else none

/-- Provider.convertToGenericRecord (cf/main.go): translate a Cloudflare
record response into the generic DNSRecord; the response has no zone
field, so ZoneID is always set to the empty string. -/
def CF.convertToGenericRecord (rr : RecordResponse) : DNSRecord :=
  { id := rr.id, name := rr.name, rtype := rr.rtype, content := rr.content,
    ttl := rr.ttl, comment := rr.comment, proxied := some rr.proxied,
    zoneID := "" }

/-- Provider.GetRecords (cf/main.go): list one zone's records and keep,
keyed by name, only those whose comment matches the ownership pattern,
converted to the generic record shape; a listing failure yields an error
(no partial result). -/
def CF.GetRecords (b : Backend) (p : List (String × RecordResponse))
    (zid : String) : Option (List (String × DNSRecord)) :=
  if b.listOk zid then
    some ((zoneListing p zid).foldl
      (fun a rr =>
        if commentMatches rr.comment then
          insertKV a rr.name (CF.convertToGenericRecord rr)
        else a) [])
  else none

/-- Provider.RefreshRecordsCache (cf/main.go): rebuild the managed-record
cache across all zones from GetRecords, merging zone results; any zone's
listing error aborts the whole refresh with an error and no result. -/
def CF.RefreshRecordsCache (b : Backend) (p : List (String × RecordResponse)) :
    List (String × String) → List (String × DNSRecord) →
    Option (List (String × DNSRecord))
  | [], acc => some acc
  | (_, zid) :: rest, acc =>
    match CF.GetRecords b p zid with
    | none => none
    | some zr =>
      CF.RefreshRecordsCache b p rest
        (zr.foldl (fun a e => insertKV a e.1 e.2) acc)

/-- The periodic cache-refresh step of cmd/main.go: run the full rebuild
and install its result only when it succeeds; on failure the previous
cache is kept. -/
def mainRefreshStep (b : Backend) (p : List (String × RecordResponse))
    (zones : List (String × String)) (prior : List (String × DNSRecord)) :
    List (String × DNSRecord) :=
  match CF.RefreshRecordsCache b p zones [] with
  | none => prior
  | some r => r

/-- Parameters of Provider.CreateRecord (types.CreateRecordParams). -/
structure CreateRecordParams where
  name : String
  rtype : String
  content : String
  ttl : Int
  comment : String
  proxied : Option Bool
  zoneID : String
deriving DecidableEq

/-- Parameters of Provider.UpdateRecord (types.UpdateRecordParams). -/
structure UpdateRecordParams where
  recordID : String
  name : String
  rtype : String
  content : String
  ttl : Int
  comment : String
  proxied : Option Bool
  zoneID : String
deriving DecidableEq

/-- The raw Cloudflare call made by Provider.CreateRecord (cf/main.go):
build the union record for a supported type (both "A" and "CNAME" carry
params.Comment), issue one create call, and on success receive the echoed
record with its assigned id. -/
def CF.CreateRecordRaw (b : Backend) (cfg : Config)
    (params : CreateRecordParams) :
    Option RecordResponse × List ProviderCall :=
  let proxied := (params.proxied).getD cfg.proxyEnabled
  if params.rtype = "A" || params.rtype = "CNAME" then
    let req : RecordResponse :=
      { id := "", name := params.name, rtype := params.rtype,
        content := params.content, comment := params.comment,
        proxied := proxied, ttl := params.ttl }
    if b.createOk then
      (some { req with id := b.freshId },
       [ProviderCall.recordCreate params.zoneID req])
    else (none, [ProviderCall.recordCreate params.zoneID req])
  else (none, [])

/-- Provider.CreateRecord (cf/main.go): the raw call followed by
convertToGenericRecord on the response. -/
def CF.CreateRecord (b : Backend) (cfg : Config)
    (params : CreateRecordParams) : Option DNSRecord × List ProviderCall :=
  let res := CF.CreateRecordRaw b cfg params
  (res.1.map CF.convertToGenericRecord, res.2)

/-- Provider.UpdateRecord (cf/main.go): like CreateRecord but issuing one
update call against the existing record id; the converted response is
returned on success. -/
def CF.UpdateRecord (b : Backend) (cfg : Config)
    (params : UpdateRecordParams) : Option DNSRecord × List ProviderCall :=
  let proxied := (params.proxied).getD cfg.proxyEnabled
  if params.rtype = "A" || params.rtype = "CNAME" then
    let req : RecordResponse :=
      { id := params.recordID, name := params.name, rtype := params.rtype,
        content := params.content, comment := params.comment,
        proxied := proxied, ttl := params.ttl }
    if b.updateOk then
      (some (CF.convertToGenericRecord req),
       [ProviderCall.recordUpdate params.recordID params.zoneID req])
    else (none, [ProviderCall.recordUpdate params.recordID params.zoneID req])
  else (none, [])

/-- State of the provider-interface pipeline: the generic-record cache and
the provider-side record store. -/
structure NewState where
  cache : List (String × DNSRecord)
  store : List (String × RecordResponse)
deriving DecidableEq

/-- Provider.CleanupRecords (cf/main.go): walk the cache (the `todo` list
is the iteration snapshot); each record whose comment equals the
resource's expected tag and whose name differs from the current desired
domain is deleted at the provider and, only when that delete succeeds,
evicted from the cache; the first delete failure aborts the walk with an
error (the Bool result is false). -/
def CF.CleanupRecords (b : Backend) (ns sname zid currentDomain : String) :
    List (String × DNSRecord) → NewState →
    NewState × List ProviderCall × Bool
  | [], st => (st, [], true)
  | (_, r) :: rest, st =>
    if r.comment = tagFor ns sname ∧ r.name ≠ currentDomain then
      if b.deleteOk r.id then
        let st' : NewState :=
          ⟨eraseKV st.cache r.name, storeRemoveId st.store r.id⟩
        let res := CF.CleanupRecords b ns sname zid currentDomain rest st'
        (res.1, ProviderCall.recordDelete r.id zid :: res.2.1, res.2.2)
      else (st, [ProviderCall.recordDelete r.id zid], false)
    else CF.CleanupRecords b ns sname zid currentDomain rest st

/-- Result of one provider-interface event handling step. -/
structure NewOutcome where
  state : NewState
  calls : List ProviderCall
  events : List EmittedEvent
deriving DecidableEq

/-- Modelled from the spec: the provider-based records.HandleAnnotations of
the current records package, whose implementation is not among the source
files (only its tests, its caller in cmd/main.go and the provider
interface it drives are). Per the spec's reconciliation transitions: gate
on the enabling annotation; resolve the zone through the provider's
CheckZoneExists (table lookup first, then one zone get); when no record is
cached for the desired domain, create it with the full ownership tag as
comment and cache the result on success; when the cached record's tag
matches this resource, invoke the provider's CleanupRecords to purge any
other record owned by this resource under a different name; when the tag
does not match, emit one DuplicateDomain event and leave everything
untouched. -/
def HandleAnnotationsNew (b : Backend) (cfg : Config) (dest : String)
    (svc : Service) (zones : List (String × String)) (st : NewState) :
    Option NewOutcome :=
  if getAnn svc.annots "greydns.io/dns" = "true" then
    match lookupKV zones (getAnn svc.annots "greydns.io/zone") with
    | none => some ⟨st, [], []⟩
    | some zid =>
      if b.zoneGetOk zid then
        let domain := getAnn svc.annots "greydns.io/domain"
        match lookupKV st.cache domain with
        | none =>
          match cfg.recordTTL with
          | none => none
          | some ttl =>
            match CF.CreateRecordRaw b cfg
                ⟨domain, cfg.recordType, dest, ttl,
                 tagFor svc.ns svc.sname, none, zid⟩ with
            | (none, calls) => some ⟨st, ProviderCall.zoneGet zid :: calls, []⟩
            | (some resp, calls) =>
              some ⟨⟨insertKV st.cache domain (CF.convertToGenericRecord resp),
                     (zid, resp) :: st.store⟩,
                    ProviderCall.zoneGet zid :: calls, []⟩
        | some r =>
          if r.comment ≠ tagFor svc.ns svc.sname then
            some ⟨st, [ProviderCall.zoneGet zid],
                  [EmittedEvent.duplicateDomain svc.ns svc.sname]⟩
          else
            let res := CF.CleanupRecords b svc.ns svc.sname zid domain st.cache st
            some ⟨res.1, ProviderCall.zoneGet zid :: res.2.1, []⟩
      else some ⟨st, [ProviderCall.zoneGet zid], []⟩
  else some ⟨st, [], []⟩

/-! Concrete fixtures used by the witness and counterexample theorems. -/

/-- A service with DNS enabled claiming api.example.com in example.com. -/
def svcA : Service :=
  ⟨"default", "svc-a",
   [("greydns.io/dns", "true"), ("greydns.io/domain", "api.example.com"),
    ("greydns.io/zone", "example.com")]⟩

/-- A second service claiming the same domain. -/
def svcB : Service :=
  ⟨"default", "svc-b",
   [("greydns.io/dns", "true"), ("greydns.io/domain", "api.example.com"),
    ("greydns.io/zone", "example.com")]⟩

/-- A service whose DNS annotation is not the literal "true". -/
def svcOff : Service :=
  ⟨"default", "svc-off",
   [("greydns.io/dns", "false"), ("greydns.io/domain", "api.example.com"),
    ("greydns.io/zone", "example.com")]⟩

/-- The zone table with one zone. -/
def zonesT : List (String × String) := [("example.com", "z1")]

/-- A-record configuration with ttl 300. -/
def cfgA : Config := ⟨some 300, "A", false⟩

/-- CNAME-record configuration with ttl 300. -/
def cfgCNAME : Config := ⟨some 300, "CNAME", false⟩

/-- A backend on which every remote call succeeds. -/
def bOK : Backend :=
  ⟨fun _ => true, fun _ => true, true, true, fun _ => true, "rid-new"⟩

/-- The record svc-a owns at api.example.com. -/
def recA : RecordResponse :=
  ⟨"rid-1", "api.example.com", "A", "10.0.0.5", tagFor "default" "svc-a",
   false, 300⟩

/-- State in which svc-a's record is cached and present at the provider. -/
def stWithA : EngineState :=
  ⟨[("api.example.com", recA)], [("z1", recA)], zonesT⟩

/-- A backend whose zone get succeeds only for the real zone id "z1"
(in particular it rejects the empty id the code passes when the zone name
is absent from the table, as the real API does). -/
def bNoZone : Backend :=
  ⟨fun z => z == "z1", fun _ => true, true, true, fun _ => true, "rid-new"⟩

/-- A service requesting a zone that is not in the zone table. -/
def svcNoZone : Service :=
  ⟨"default", "svc-a",
   [("greydns.io/dns", "true"), ("greydns.io/domain", "api.example.com"),
    ("greydns.io/zone", "missing.example.com")]⟩

/-- The empty starting state over the one-zone table. -/
def stEmpty : EngineState := ⟨[], [], zonesT⟩

/-- The A-record create request svc-a's event builds. -/
def reqA : RecordResponse :=
  ⟨"", "api.example.com", "A", "10.0.0.5", tagFor "default" "svc-a",
   false, 300⟩

/-- A backend on which every record listing fails. -/
def bListFail : Backend :=
  ⟨fun _ => true, fun _ => false, true, true, fun _ => true, "rid-new"⟩

/-- The generic form of svc-a's current record. -/
def drA : DNSRecord := CF.convertToGenericRecord recA

/-- A stale record svc-a still owns under its previous domain name. -/
def recOld : RecordResponse :=
  ⟨"rid-0", "old.example.com", "A", "10.0.0.5", tagFor "default" "svc-a",
   false, 300⟩

/-- The provider-interface state with svc-a's current and stale records. -/
def nstA : NewState :=
  ⟨[("api.example.com", drA),
    ("old.example.com", CF.convertToGenericRecord recOld)],
   [("z1", recA), ("z1", recOld)]⟩

/-- The cache invariant of the spec: every cache entry has an
ownership-pattern comment, is keyed by its record's name, and corresponds
to a record that exists at the provider. -/
def CacheInv (c p : List (String × RecordResponse)) : Prop :=
  ∀ e ∈ c, commentMatches e.2.comment = true ∧ e.2.name = e.1 ∧
    ∃ q ∈ p, q.2 = e.2

/-- The same invariant for the provider-interface cache of converted
records. -/
def CacheInvNew (c : List (String × DNSRecord))
    (p : List (String × RecordResponse)) : Prop :=
  ∀ e ∈ c, commentMatches e.2.comment = true ∧ e.2.name = e.1 ∧
    ∃ q ∈ p, CF.convertToGenericRecord q.2 = e.2

/-- Distinctness of the provider record ids held in the cache (true of
every reachable state: the backend assigns unique ids). -/
def NodupIDs (c : List (String × RecordResponse)) : Prop :=
  (c.map (fun e => e.2.id)).Nodup

/-- Claim C1: for every create/update event where a record already exists in
the cache under the desired domain and its comment does not equal this
resource's ownership tag (the event having passed the enablement gate and
the zone check), the handler emits exactly one DuplicateDomain
notification, performs zero provider mutation calls (no create, update or
delete), and leaves the cache, the provider records and the zone table
unchanged. -/
theorem greydns_C1 (b : Backend) (cfg : Config) (dest : String)
    (svc : Service) (st : EngineState) (r : RecordResponse)
    (hEn : getAnn svc.annots "greydns.io/dns" = "true")
    (hz : b.zoneGetOk
      ((lookupKV st.zones (getAnn svc.annots "greydns.io/zone")).getD "")
      = true)
    (hr : lookupKV st.cache (getAnn svc.annots "greydns.io/domain") = some r)
    (hc : r.comment ≠ tagFor svc.ns svc.sname) :
    (HandleAnnotations b cfg dest svc st).map
        (fun o => (o.state, o.calls.filter isMutation, o.events))
      = some (st, [], [EmittedEvent.duplicateDomain svc.ns svc.sname]) := by
  simp [HandleAnnotations, CheckIfZoneExists, hEn, hz, hr, hc, isMutation]

/-- Witness for C1: svc-b claiming api.example.com, already owned by svc-a. -/
theorem greydns_C1_witness :
    (HandleAnnotations bOK cfgA "10.0.0.5" svcB stWithA).map
        (fun o => (o.state, o.calls.filter isMutation, o.events))
      = some (stWithA, [], [EmittedEvent.duplicateDomain "default" "svc-b"]) :=
  greydns_C1 bOK cfgA "10.0.0.5" svcB stWithA recA (by decide) (by decide)
    (by decide) (by decide)

/-- Claim C6: an event (create, update or delete) for a resource whose
enabling annotation is absent or not the literal "true" is a complete
no-op: no provider call of any kind, no emitted event, and the state
(record cache, provider records and zone table) is returned unchanged,
whatever it was. -/
theorem greydns_C6 (b : Backend) (cfg : Config) (dest : String)
    (svc : Service) (st : EngineState)
    (hEn : getAnn svc.annots "greydns.io/dns" ≠ "true") :
    HandleAnnotations b cfg dest svc st = some ⟨st, [], []⟩ ∧
    HandleDeletions b svc st = ⟨st, [], []⟩ := by
  constructor
  · simp [HandleAnnotations, hEn]
  · simp [HandleDeletions, hEn]

/-- Witness for C6: a disabled service against a populated state. -/
theorem greydns_C6_witness :
    HandleAnnotations bOK cfgA "10.0.0.5" svcOff stWithA
        = some ⟨stWithA, [], []⟩ ∧
    HandleDeletions bOK svcOff stWithA = ⟨stWithA, [], []⟩ :=
  greydns_C6 bOK cfgA "10.0.0.5" svcOff stWithA (by decide)

/-- Counterexample for C9 as stated: with the zone name absent from the
table, the handler still issues a provider call (the zone get with the
zero-value zone id) before aborting, so "before any provider call is
made" is false. -/
theorem greydns_C9_counterexample :
    (HandleAnnotations bNoZone cfgA "10.0.0.5" svcNoZone stWithA).map
        (fun o => o.calls)
      = some [ProviderCall.zoneGet ""] ∧
    [ProviderCall.zoneGet ""] ≠ ([] : List ProviderCall) := by decide

/-- Claim C9 (amended): for every event whose desired zone name is absent
from the zone table, both handlers abort with the failed zone lookup
before any provider record-mutation call, leaving the state (cache,
provider records, zone table) unchanged and emitting nothing; the zone
check itself still issues exactly one provider zone-get call, with the
zero-value zone id, which the backend rejects. -/
theorem greydns_C9 (b : Backend) (cfg : Config) (dest : String)
    (svc : Service) (st : EngineState)
    (hEn : getAnn svc.annots "greydns.io/dns" = "true")
    (hzl : lookupKV st.zones (getAnn svc.annots "greydns.io/zone") = none)
    (hz : b.zoneGetOk "" = false) :
    HandleAnnotations b cfg dest svc st
        = some ⟨st, [ProviderCall.zoneGet ""], []⟩ ∧
    HandleDeletions b svc st = ⟨st, [ProviderCall.zoneGet ""], []⟩ ∧
    ([ProviderCall.zoneGet ""].filter isMutation) = [] := by
  refine ⟨?_, ?_, by simp [isMutation]⟩
  · simp [HandleAnnotations, CheckIfZoneExists, hEn, hzl, hz]
  · simp [HandleDeletions, CheckIfZoneExists, hEn, hzl, hz]

/-- Witness for the amended C9 at a concrete absent zone. -/
theorem greydns_C9_witness :
    HandleAnnotations bNoZone cfgA "10.0.0.5" svcNoZone stWithA
        = some ⟨stWithA, [ProviderCall.zoneGet ""], []⟩ ∧
    HandleDeletions bNoZone svcNoZone stWithA
        = ⟨stWithA, [ProviderCall.zoneGet ""], []⟩ ∧
    ([ProviderCall.zoneGet ""].filter isMutation) = [] :=
  greydns_C9 bNoZone cfgA "10.0.0.5" svcNoZone stWithA (by decide) (by decide)
    (by decide)

/-- Counterexample for C4 as stated: a delete event for a domain owned by a
different resource is claimed to make "zero provider calls", but the
handler has already issued the zone-get call of the zone check. -/
theorem greydns_C4_counterexample :
    (HandleDeletions bOK svcB stWithA).state = stWithA ∧
    (HandleDeletions bOK svcB stWithA).calls = [ProviderCall.zoneGet "z1"] ∧
    [ProviderCall.zoneGet "z1"] ≠ ([] : List ProviderCall) := by decide

/-- Claim C4 (amended): on a delete event (enabled, zone check passed): if
the cached record for the desired domain carries this resource's tag, one
deleteRecord call is issued and the cache entry is evicted exactly when
the delete succeeds (on failure the entry and the provider record are
retained); if the record's tag belongs to a different resource, or no
record exists, zero provider record-mutation calls are made and the state
is unchanged — though the zone check has already issued its single
zone-get call. -/
theorem greydns_C4 (b : Backend) (svc : Service) (st : EngineState)
    (hEn : getAnn svc.annots "greydns.io/dns" = "true")
    (hz : b.zoneGetOk
      ((lookupKV st.zones (getAnn svc.annots "greydns.io/zone")).getD "")
      = true) :
    (∀ r, lookupKV st.cache (getAnn svc.annots "greydns.io/domain") = some r →
      r.comment = tagFor svc.ns svc.sname → b.deleteOk r.id = true →
      HandleDeletions b svc st =
        ⟨⟨eraseKV st.cache (getAnn svc.annots "greydns.io/domain"),
          storeRemoveId st.store r.id, st.zones⟩,
         [ProviderCall.zoneGet
            ((lookupKV st.zones (getAnn svc.annots "greydns.io/zone")).getD ""),
          ProviderCall.recordDelete r.id
            ((lookupKV st.zones (getAnn svc.annots "greydns.io/zone")).getD "")],
         []⟩) ∧
    (∀ r, lookupKV st.cache (getAnn svc.annots "greydns.io/domain") = some r →
      r.comment = tagFor svc.ns svc.sname → b.deleteOk r.id = false →
      HandleDeletions b svc st =
        ⟨st,
         [ProviderCall.zoneGet
            ((lookupKV st.zones (getAnn svc.annots "greydns.io/zone")).getD ""),
          ProviderCall.recordDelete r.id
            ((lookupKV st.zones (getAnn svc.annots "greydns.io/zone")).getD "")],
         []⟩) ∧
    (∀ r, lookupKV st.cache (getAnn svc.annots "greydns.io/domain") = some r →
      r.comment ≠ tagFor svc.ns svc.sname →
      HandleDeletions b svc st =
        ⟨st,
         [ProviderCall.zoneGet
            ((lookupKV st.zones (getAnn svc.annots "greydns.io/zone")).getD "")],
         []⟩) ∧
    (lookupKV st.cache (getAnn svc.annots "greydns.io/domain") = none →
      HandleDeletions b svc st =
        ⟨st,
         [ProviderCall.zoneGet
            ((lookupKV st.zones (getAnn svc.annots "greydns.io/zone")).getD "")],
         []⟩) ∧
    (∀ z : String, [ProviderCall.zoneGet z].filter isMutation = []) := by
  refine ⟨?_, ?_, ?_, ?_, by intro z; simp [isMutation]⟩
  · intro r hr hc hd
    simp [HandleDeletions, CheckIfZoneExists, hEn, hz, hr, hc, hd]
  · intro r hr hc hd
    simp [HandleDeletions, CheckIfZoneExists, hEn, hz, hr, hc, hd]
  · intro r hr hc
    simp [HandleDeletions, CheckIfZoneExists, hEn, hz, hr, hc]
  · intro hr
    simp [HandleDeletions, CheckIfZoneExists, hEn, hz, hr]

/-- Witness for the amended C4: svc-a deletes its own record successfully. -/
theorem greydns_C4_witness :
    HandleDeletions bOK svcA stWithA =
      ⟨⟨eraseKV stWithA.cache "api.example.com",
        storeRemoveId stWithA.store "rid-1", stWithA.zones⟩,
       [ProviderCall.zoneGet "z1", ProviderCall.recordDelete "rid-1" "z1"],
       []⟩ :=
  (greydns_C4 bOK svcA stWithA (by decide) (by decide)).1 recA (by decide)
    (by decide) (by decide)

/-- Counterexample for C3 as stated: with the configured record type
"CNAME", the successful first create for an unclaimed domain inserts a
cache entry whose comment is the bare marker, not the claiming resource's
ownership tag. -/
theorem greydns_C3_counterexample :
    (HandleAnnotations bOK cfgCNAME "10.0.0.5" svcA stEmpty).map
        (fun o => (lookupKV o.state.cache "api.example.com").map
          (fun r => r.comment))
      = some (some greydnsMarker) ∧
    greydnsMarker ≠ tagFor "default" "svc-a" := by decide

/-- Claim C3 (amended): for a domain with no cache entry, a create (or
first update) event from an enabled resource whose zone resolves, with a
parseable TTL and a supported configured record type, issues exactly one
createRecord call; if the backend call succeeds, exactly one cache entry
is inserted under the desired domain (and the provider gains the created
record), carrying the claiming resource's ownership tag when the
configured record type is "A" (for "CNAME" the comment is only the bare
marker); if the call fails, the cache, provider records and zone table
are left unchanged. -/
theorem greydns_C3 (b : Backend) (cfg : Config) (dest : String)
    (svc : Service) (st : EngineState) (ttl : Int) (req : RecordResponse)
    (hEn : getAnn svc.annots "greydns.io/dns" = "true")
    (hz : b.zoneGetOk
      ((lookupKV st.zones (getAnn svc.annots "greydns.io/zone")).getD "")
      = true)
    (hnone : lookupKV st.cache (getAnn svc.annots "greydns.io/domain") = none)
    (httl : cfg.recordTTL = some ttl)
    (hreq : recordParamFor cfg (getAnn svc.annots "greydns.io/domain") dest
      ttl svc = some req) :
    (b.createOk = true →
      HandleAnnotations b cfg dest svc st =
        some ⟨⟨insertKV st.cache (getAnn svc.annots "greydns.io/domain")
                 { req with id := b.freshId },
               ((lookupKV st.zones (getAnn svc.annots "greydns.io/zone")).getD "",
                { req with id := b.freshId }) :: st.store,
               st.zones⟩,
              [ProviderCall.zoneGet
                 ((lookupKV st.zones (getAnn svc.annots "greydns.io/zone")).getD ""),
               ProviderCall.recordCreate
                 ((lookupKV st.zones (getAnn svc.annots "greydns.io/zone")).getD "")
                 req],
              []⟩) ∧
    (b.createOk = false →
      HandleAnnotations b cfg dest svc st =
        some ⟨st,
              [ProviderCall.zoneGet
                 ((lookupKV st.zones (getAnn svc.annots "greydns.io/zone")).getD ""),
               ProviderCall.recordCreate
                 ((lookupKV st.zones (getAnn svc.annots "greydns.io/zone")).getD "")
                 req],
              []⟩) ∧
    (cfg.recordType = "A" → req.comment = tagFor svc.ns svc.sname) ∧
    (∀ z : String,
      ([ProviderCall.zoneGet z, ProviderCall.recordCreate z req].countP
        isCreate) = 1) := by
  refine ⟨?_, ?_, ?_, ?_⟩
  · intro hco
    simp [HandleAnnotations, CreateRecord, CheckIfZoneExists, hEn, hz, hnone,
      httl, hreq, hco]
  · intro hco
    simp [HandleAnnotations, CreateRecord, CheckIfZoneExists, hEn, hz, hnone,
      httl, hreq, hco]
  · intro hA
    simp [recordParamFor, hA] at hreq
    simp [← hreq]
  · intro z
    simp [List.countP_cons, isCreate]

/-- Witness for the amended C3: the first create for api.example.com under
an "A" configuration succeeds and caches the tagged record. -/
theorem greydns_C3_witness :
    HandleAnnotations bOK cfgA "10.0.0.5" svcA stEmpty =
      some ⟨⟨insertKV stEmpty.cache "api.example.com"
               { reqA with id := "rid-new" },
             ("z1", { reqA with id := "rid-new" }) :: stEmpty.store,
             stEmpty.zones⟩,
            [ProviderCall.zoneGet "z1",
             ProviderCall.recordCreate "z1" reqA],
            []⟩ :=
  (greydns_C3 bOK cfgA "10.0.0.5" svcA stEmpty 300 reqA (by decide)
    (by decide) (by decide) (by decide) (by decide)).1 (by decide)

/-- If any zone's listing fails, the full rebuild fails (no partial
result), whatever has been accumulated so far. -/
theorem refreshRecordsCache_none_of_fail (b : Backend)
    (p : List (String × RecordResponse)) :
    ∀ (zs : List (String × String)) (acc : List (String × DNSRecord)),
      (∃ e ∈ zs, b.listOk e.2 = false) →
      CF.RefreshRecordsCache b p zs acc = none := by
  intro zs
  induction zs with
  | nil => intro acc h; simp at h
  | cons hd tl ih =>
    obtain ⟨n, zid⟩ := hd
    intro acc h
    rcases h with ⟨e, he, hfail⟩
    rcases List.mem_cons.mp he with rfl | he'
    · simp only [CF.RefreshRecordsCache, CF.GetRecords] at *
      simp [hfail]
    · simp only [CF.RefreshRecordsCache]
      cases hg : CF.GetRecords b p zid with
      | none => rfl
      | some zr => exact ih _ ⟨e, he', hfail⟩

/-- Claim C5: when a periodic cache refresh fails (some zone's listing
returns an error), the previous cache is retained unchanged — no entry is
evicted and no partial result is installed; the cache is replaced only
when the full rebuild succeeds. -/
theorem greydns_C5 (b : Backend) (p : List (String × RecordResponse))
    (zones : List (String × String)) (prior : List (String × DNSRecord)) :
    ((∃ e ∈ zones, b.listOk e.2 = false) →
      mainRefreshStep b p zones prior = prior) ∧
    (∀ c, CF.RefreshRecordsCache b p zones [] = some c →
      mainRefreshStep b p zones prior = c) := by
  constructor
  · intro h
    simp [mainRefreshStep, refreshRecordsCache_none_of_fail b p zones [] h]
  · intro c hc
    simp [mainRefreshStep, hc]

/-- Witness for C5: a failing refresh over a populated prior cache leaves
it exactly as it was. -/
theorem greydns_C5_witness :
    mainRefreshStep bListFail [("z1", recA)] zonesT
        [("api.example.com", CF.convertToGenericRecord recA)]
      = [("api.example.com", CF.convertToGenericRecord recA)] :=
  (greydns_C5 bListFail [("z1", recA)] zonesT
    [("api.example.com", CF.convertToGenericRecord recA)]).1 (by decide)

/-- Claim C7 (the code at the failing input): with the configured record
type "CNAME", cf.CreateRecord writes only the bare marker into the
record's comment, which is not the claiming resource's ownership tag, so
the ownership comparison performed later against the tag fails for the
creator. -/
theorem greydns_C7_bug :
    ((CreateRecord bOK cfgCNAME "www.example.com" "10.0.0.5" 300 "z1"
        svcA).1).map (fun r => r.comment) = some greydnsMarker ∧
    greydnsMarker ≠ tagFor "default" "svc-a" := by decide

/-- Unfolding membership in a Go-map insertion. -/
theorem mem_insertKV {α : Type} {l : List (String × α)} {k : String}
    {v : α} {e : String × α} (h : e ∈ insertKV l k v) :
    e = (k, v) ∨ e ∈ l := by
  rcases List.mem_cons.mp h with h' | h'
  · exact Or.inl h'
  · exact Or.inr (List.mem_filter.mp h').1

/-- Every entry of the cache a zone listing builds has an empty ZoneID:
the fold only inserts converted records. -/
theorem zoneID_empty_of_listing_fold (l : List RecordResponse) :
    ∀ acc : List (String × DNSRecord),
      (∀ e ∈ acc, e.2.zoneID = "") →
      ∀ e ∈ l.foldl
        (fun a rr =>
          if commentMatches rr.comment then
            insertKV a rr.name (CF.convertToGenericRecord rr)
          else a) acc,
        e.2.zoneID = "" := by
  induction l with
  | nil => intro acc hacc; exact hacc
  | cons rr rest ih =>
    intro acc hacc
    simp only [List.foldl_cons]
    by_cases hm : commentMatches rr.comment
    · refine ih _ ?_
      intro e he
      rcases mem_insertKV (by simpa [hm] using he) with rfl | he'
      · rfl
      · exact hacc e he'
    · simpa [hm] using ih acc hacc

/-- Merging one zone's converted records into an accumulator preserves
the empty-ZoneID property. -/
theorem zoneID_empty_of_merge_fold (l : List (String × DNSRecord)) :
    ∀ acc : List (String × DNSRecord),
      (∀ e ∈ l, e.2.zoneID = "") → (∀ e ∈ acc, e.2.zoneID = "") →
      ∀ e ∈ l.foldl (fun a e => insertKV a e.1 e.2) acc, e.2.zoneID = "" := by
  induction l with
  | nil => intro acc _ hacc; exact hacc
  | cons hd rest ih =>
    intro acc hl hacc
    simp only [List.foldl_cons]
    refine ih _ (fun e he => hl e (List.mem_cons_of_mem _ he)) ?_
    intro e he
    rcases mem_insertKV he with rfl | he'
    · exact hl hd (List.mem_cons_self _ _)
    · exact hacc e he'

/-- Claim C10: every DNSRecord the Cloudflare adapter's conversion
produces has an empty ZoneID, and therefore so does every record returned
by its CreateRecord and UpdateRecord, every entry of a GetRecords
listing, and every entry entering the cache through RefreshRecordsCache,
regardless of which zone the record belongs to. -/
theorem greydns_C10 :
    (∀ rr : RecordResponse, (CF.convertToGenericRecord rr).zoneID = "") ∧
    (∀ (b : Backend) (p : List (String × RecordResponse)) (zid : String)
        (m : List (String × DNSRecord)),
      CF.GetRecords b p zid = some m → ∀ e ∈ m, e.2.zoneID = "") ∧
    (∀ (b : Backend) (cfg : Config) (params : CreateRecordParams)
        (rec : DNSRecord),
      (CF.CreateRecord b cfg params).1 = some rec → rec.zoneID = "") ∧
    (∀ (b : Backend) (cfg : Config) (params : UpdateRecordParams)
        (rec : DNSRecord),
      (CF.UpdateRecord b cfg params).1 = some rec → rec.zoneID = "") ∧
    (∀ (b : Backend) (p : List (String × RecordResponse))
        (zs : List (String × String)) (acc c : List (String × DNSRecord)),
      (∀ e ∈ acc, e.2.zoneID = "") →
      CF.RefreshRecordsCache b p zs acc = some c →
      ∀ e ∈ c, e.2.zoneID = "") := by
  refine ⟨fun rr => rfl, ?_, ?_, ?_, ?_⟩
  · intro b p zid m hm e he
    by_cases hl : b.listOk zid
    · simp only [CF.GetRecords, hl, if_true, Option.some.injEq] at hm
      subst hm
      exact zoneID_empty_of_listing_fold _ [] (by simp) e he
    · simp [CF.GetRecords, hl] at hm
  · intro b cfg params rec h
    have h' : ((CF.CreateRecordRaw b cfg params).1.map
        CF.convertToGenericRecord) = some rec := h
    rcases Option.map_eq_some'.mp h' with ⟨rr, _, hc⟩
    rw [← hc]
    rfl
  · intro b cfg params rec h
    simp only [CF.UpdateRecord] at h
    split at h
    · split at h
      · exact (Option.some.injEq _ _ ▸ h) ▸ rfl
      · simp at h
    · simp at h
  · intro b p zs
    induction zs with
    | nil =>
      intro acc c hacc hc
      simp only [CF.RefreshRecordsCache, Option.some.injEq] at hc
      exact hc ▸ hacc
    | cons hd tl ih =>
      obtain ⟨n, zid⟩ := hd
      intro acc c hacc hc
      simp only [CF.RefreshRecordsCache] at hc
      cases hg : CF.GetRecords b p zid with
      | none => rw [hg] at hc; exact absurd hc (by simp)
      | some zr =>
        rw [hg] at hc
        refine ih _ c ?_ hc
        have hzr : ∀ e ∈ zr, e.2.zoneID = "" := by
          by_cases hl : b.listOk zid
          · simp only [CF.GetRecords, hl, if_true, Option.some.injEq] at hg
            subst hg
            exact zoneID_empty_of_listing_fold _ [] (by simp)
          · simp [CF.GetRecords, hl] at hg
        exact zoneID_empty_of_merge_fold zr acc hzr hacc

/-- Witness for C10: the record the adapter returns for a concrete
successful creation has an empty ZoneID. -/
theorem greydns_C10_witness :
    (CF.convertToGenericRecord
      ⟨"rid-new", "api.example.com", "A", "10.0.0.5",
       tagFor "default" "svc-a", false, 300⟩).zoneID = "" :=
  greydns_C10.2.2.1 bOK cfgA
    ⟨"api.example.com", "A", "10.0.0.5", 300, tagFor "default" "svc-a",
     none, "z1"⟩ _ (by decide)

/-- find? sees through a filter that keeps every element the search
predicate accepts. -/
theorem find?_filter_eq {α : Type} (p q : α → Bool)
    (himp : ∀ a, p a = true → q a = true) :
    ∀ l : List α, List.find? p (l.filter q) = List.find? p l := by
  intro l
  induction l with
  | nil => rfl
  | cons hd tl ih =>
    by_cases hq : q hd = true
    · rw [List.filter_cons_of_pos hq]
      cases hp : p hd with
      | true => rw [List.find?_cons_of_pos _ hp, List.find?_cons_of_pos _ hp]
      | false => rw [List.find?_cons_of_neg _ (by simp [hp]),
          List.find?_cons_of_neg _ (by simp [hp])]; exact ih
    · have hp : p hd = false := by
        cases hp : p hd
        · rfl
        · exact absurd (himp hd hp) hq
      rw [List.filter_cons_of_neg (by simp [hq]),
        List.find?_cons_of_neg _ (by simp [hp])]
      exact ih

/-- Erasing one key leaves lookups of any other key unchanged. -/
theorem lookup_eraseKV_ne {α : Type} (k k' : String) (h : k ≠ k')
    (l : List (String × α)) : lookupKV (eraseKV l k) k' = lookupKV l k' := by
  unfold lookupKV eraseKV
  rw [find?_filter_eq]
  intro e he
  have he' : e.1 = k' := by simpa using he
  simp only [bne_iff_ne, ne_eq, he']
  exact fun hh => h hh.symm

/-- A successful lookup exhibits a member of the list. -/
theorem lookup_mem {α : Type} {l : List (String × α)} {k : String} {v : α}
    (h : lookupKV l k = some v) : (k, v) ∈ l := by
  induction l with
  | nil => simp [lookupKV] at h
  | cons hd tl ih =>
    obtain ⟨a, w⟩ := hd
    by_cases h1 : a = k
    · subst h1
      rw [lookupKV, List.find?_cons_of_pos _ (by simp)] at h
      obtain rfl : w = v := Option.some.inj h
      exact List.mem_cons_self _ _
    · rw [lookupKV, List.find?_cons_of_neg _ (by simpa using h1)] at h
      exact List.mem_cons_of_mem _ (ih h)

/-- Every provider call the cleanup walk issues is a record deletion. -/
theorem cleanupNew_calls_are_deletes (b : Backend) (ns sname zid cur : String) :
    ∀ (todo : List (String × DNSRecord)) (st : NewState),
      ∀ c ∈ (CF.CleanupRecords b ns sname zid cur todo st).2.1,
        isDelete c = true := by
  intro todo
  induction todo with
  | nil => intro st c hc; simp [CF.CleanupRecords] at hc
  | cons hd tl ih =>
    intro st c hc
    obtain ⟨k, r⟩ := hd
    by_cases hg : r.comment = tagFor ns sname ∧ r.name ≠ cur
    · cases hdel : b.deleteOk r.id with
      | true =>
        simp only [CF.CleanupRecords, if_pos hg, hdel, if_true] at hc
        rcases List.mem_cons.mp hc with rfl | hc'
        · rfl
        · exact ih _ c hc'
      | false =>
        simp only [CF.CleanupRecords, if_pos hg, hdel, Bool.false_eq_true,
          if_false, List.mem_singleton] at hc
        subst hc; rfl
    · simp only [CF.CleanupRecords, if_neg hg] at hc
      exact ih _ c hc

/-- The cleanup walk never touches the cache entry under the current
desired domain: every eviction is keyed by a record name different from
it, and nothing is inserted. -/
theorem cleanupNew_lookup_cur (b : Backend) (ns sname zid cur : String) :
    ∀ (todo : List (String × DNSRecord)) (st : NewState),
      lookupKV (CF.CleanupRecords b ns sname zid cur todo st).1.cache cur
        = lookupKV st.cache cur := by
  intro todo
  induction todo with
  | nil => intro st; rfl
  | cons hd tl ih =>
    intro st
    obtain ⟨k, r⟩ := hd
    by_cases hg : r.comment = tagFor ns sname ∧ r.name ≠ cur
    · cases hdel : b.deleteOk r.id with
      | true =>
        simp only [CF.CleanupRecords, if_pos hg, hdel, if_true]
        rw [ih]
        exact lookup_eraseKV_ne r.name cur hg.2 st.cache
      | false =>
        simp only [CF.CleanupRecords, if_pos hg, hdel, Bool.false_eq_true,
          if_false]
    · simp only [CF.CleanupRecords, if_neg hg]
      exact ih st

/-- Claim C8: a create/update event for a resource already in Owned-Current
state (cached record at the desired domain whose comment equals this
resource's tag) issues zero createRecord and zero updateRecord calls and
leaves the cache entry for that domain unchanged; its only effect is the
invocation of the provider's CleanupRecords pass (whose calls are all
record deletions of other records owned by this resource). -/
theorem greydns_C8 (b : Backend) (cfg : Config) (dest : String)
    (svc : Service) (zones : List (String × String)) (st : NewState)
    (zid : String) (r : DNSRecord)
    (hEn : getAnn svc.annots "greydns.io/dns" = "true")
    (hzl : lookupKV zones (getAnn svc.annots "greydns.io/zone") = some zid)
    (hz : b.zoneGetOk zid = true)
    (hr : lookupKV st.cache (getAnn svc.annots "greydns.io/domain") = some r)
    (hc : r.comment = tagFor svc.ns svc.sname) :
    HandleAnnotationsNew b cfg dest svc zones st =
      some ⟨(CF.CleanupRecords b svc.ns svc.sname zid
               (getAnn svc.annots "greydns.io/domain") st.cache st).1,
            ProviderCall.zoneGet zid ::
              (CF.CleanupRecords b svc.ns svc.sname zid
                (getAnn svc.annots "greydns.io/domain") st.cache st).2.1,
            []⟩ ∧
    (∀ c ∈ (CF.CleanupRecords b svc.ns svc.sname zid
        (getAnn svc.annots "greydns.io/domain") st.cache st).2.1,
      isCreate c = false ∧ isUpdate c = false) ∧
    lookupKV (CF.CleanupRecords b svc.ns svc.sname zid
        (getAnn svc.annots "greydns.io/domain") st.cache st).1.cache
        (getAnn svc.annots "greydns.io/domain") = some r := by
  refine ⟨?_, ?_, ?_⟩
  · simp [HandleAnnotationsNew, hEn, hzl, hz, hr, hc]
  · intro c hcc
    have hdel := cleanupNew_calls_are_deletes b svc.ns svc.sname zid
      (getAnn svc.annots "greydns.io/domain") st.cache st c hcc
    cases c <;> simp_all [isDelete, isCreate, isUpdate]
  · rw [cleanupNew_lookup_cur, hr]

/-- Witness for C8: svc-a's repeated create/update event over a state in
which it owns both its current record and a stale one. -/
theorem greydns_C8_witness :
    HandleAnnotationsNew bOK cfgA "10.0.0.5" svcA zonesT nstA =
      some ⟨(CF.CleanupRecords bOK "default" "svc-a" "z1" "api.example.com"
               nstA.cache nstA).1,
            ProviderCall.zoneGet "z1" ::
              (CF.CleanupRecords bOK "default" "svc-a" "z1" "api.example.com"
                nstA.cache nstA).2.1,
            []⟩ :=
  (greydns_C8 bOK cfgA "10.0.0.5" svcA zonesT nstA "z1" drA (by decide)
    (by decide) (by decide) (by decide) (by decide)).1

/-- The bare marker matches the ownership pattern. -/
theorem marker_matches : commentMatches greydnsMarker = true := by decide

/-- Every record of a zone listing is a record of the provider store. -/
theorem zoneListing_mem {p : List (String × RecordResponse)} {zid : String}
    {rr : RecordResponse} (h : rr ∈ zoneListing p zid) :
    ∃ q ∈ p, q.2 = rr := by
  simp only [zoneListing, List.mem_map] at h
  obtain ⟨q, hq, hq2⟩ := h
  exact ⟨q, (List.mem_filter.mp hq).1, hq2⟩

/-- The GetRecords fold only admits pattern-matching records that exist at
the provider. -/
theorem listing_fold_inv (p : List (String × RecordResponse))
    (l : List RecordResponse) :
    ∀ acc, (∀ rr ∈ l, ∃ q ∈ p, q.2 = rr) → CacheInvNew acc p →
      CacheInvNew (l.foldl
        (fun a rr =>
          if commentMatches rr.comment then
            insertKV a rr.name (CF.convertToGenericRecord rr)
          else a) acc) p := by
  induction l with
  | nil => intro acc _ hacc; exact hacc
  | cons rr rest ih =>
    intro acc hl hacc
    simp only [List.foldl_cons]
    by_cases hm : commentMatches rr.comment = true
    · rw [if_pos hm]
      refine ih _ (fun x hx => hl x (List.mem_cons_of_mem _ hx)) ?_
      intro e he
      rcases mem_insertKV he with rfl | he'
      · refine ⟨hm, rfl, ?_⟩
        obtain ⟨q, hq, hq2⟩ := hl rr (List.mem_cons_self _ _)
        exact ⟨q, hq, by rw [hq2]⟩
      · exact hacc e he'
    · rw [if_neg hm]
      exact ih _ (fun x hx => hl x (List.mem_cons_of_mem _ hx)) hacc

/-- The legacy refresh fold only admits pattern-matching records that
exist at the provider. -/
theorem legacy_fold_inv (p : List (String × RecordResponse))
    (l : List RecordResponse) :
    ∀ acc, (∀ rr ∈ l, ∃ q ∈ p, q.2 = rr) → CacheInv acc p →
      CacheInv (l.foldl
        (fun a rr =>
          if commentMatches rr.comment then insertKV a rr.name rr else a)
        acc) p := by
  induction l with
  | nil => intro acc _ hacc; exact hacc
  | cons rr rest ih =>
    intro acc hl hacc
    simp only [List.foldl_cons]
    by_cases hm : commentMatches rr.comment = true
    · rw [if_pos hm]
      refine ih _ (fun x hx => hl x (List.mem_cons_of_mem _ hx)) ?_
      intro e he
      rcases mem_insertKV he with rfl | he'
      · exact ⟨hm, rfl, hl rr (List.mem_cons_self _ _)⟩
      · exact hacc e he'
    · rw [if_neg hm]
      exact ih _ (fun x hx => hl x (List.mem_cons_of_mem _ hx)) hacc

/-- Admission through the provider-interface GetRecords. -/
theorem getRecords_inv (b : Backend) (p : List (String × RecordResponse))
    (zid : String) (m : List (String × DNSRecord))
    (h : CF.GetRecords b p zid = some m) : CacheInvNew m p := by
  by_cases hl : b.listOk zid = true
  · simp only [CF.GetRecords, hl, if_true, Option.some.injEq] at h
    subst h
    exact listing_fold_inv p _ [] (fun rr hrr => zoneListing_mem hrr)
      (by intro e he; simp at he)
  · simp [CF.GetRecords, hl] at h

/-- Admission through the legacy full refresh. -/
theorem refreshLegacy_inv (b : Backend) (p : List (String × RecordResponse)) :
    ∀ (zs : List (String × String)) (acc c : List (String × RecordResponse)),
      CacheInv acc p → RefreshRecordsCacheLegacy b p zs acc = some c →
      CacheInv c p := by
  intro zs
  induction zs with
  | nil =>
    intro acc c hacc h
    simp only [RefreshRecordsCacheLegacy, Option.some.injEq] at h
    exact h ▸ hacc
  | cons hd tl ih =>
    obtain ⟨n, zid⟩ := hd
    intro acc c hacc h
    by_cases hl : b.listOk zid = true
    · simp only [RefreshRecordsCacheLegacy, hl, if_true] at h
      exact ih _ c
        (legacy_fold_inv p _ acc (fun rr hrr => zoneListing_mem hrr) hacc) h
    · simp [RefreshRecordsCacheLegacy, hl] at h

/-- The built create request is named after the desired domain and its
comment is the resource tag (type "A") or the bare marker (type "CNAME"). -/
theorem recordParamFor_spec (cfg : Config) (name dest : String) (ttl : Int)
    (svc : Service) (req : RecordResponse)
    (h : recordParamFor cfg name dest ttl svc = some req) :
    req.name = name ∧
    (req.comment = tagFor svc.ns svc.sname ∨ req.comment = greydnsMarker) := by
  unfold recordParamFor at h
  by_cases hA : cfg.recordType = "A"
  · rw [if_pos hA] at h
    obtain rfl := Option.some.inj h
    exact ⟨rfl, Or.inl rfl⟩
  · rw [if_neg hA] at h
    by_cases hC : cfg.recordType = "CNAME"
    · rw [if_pos hC] at h
      obtain rfl := Option.some.inj h
      exact ⟨rfl, Or.inr rfl⟩
    · rw [if_neg hC] at h
      exact absurd h (by simp)

/-- A successful legacy create returns the built request, renamed with the
backend-assigned id. -/
theorem createRecord_some (b : Backend) (cfg : Config) (name dest : String)
    (ttl : Int) (zid : String) (svc : Service) (resp : RecordResponse)
    (calls : List ProviderCall)
    (h : CreateRecord b cfg name dest ttl zid svc = (some resp, calls)) :
    resp.name = name ∧
    (resp.comment = tagFor svc.ns svc.sname ∨
     resp.comment = greydnsMarker) := by
  cases hrp : recordParamFor cfg name dest ttl svc with
  | none => simp [CreateRecord, hrp] at h
  | some req =>
    obtain ⟨hn, hcom⟩ := recordParamFor_spec cfg name dest ttl svc req hrp
    by_cases hco : b.createOk = true
    · simp only [CreateRecord, hrp, hco, if_true, Prod.mk.injEq,
        Option.some.injEq] at h
      rw [← h.1]
      exact ⟨hn, hcom⟩
    · simp [CreateRecord, hrp, hco] at h

/-- HandleAnnotations preserves the cache invariant (the only cache
mutation is the insert of a successfully created record, which carries a
pattern-matching comment, is keyed by its name, and is added to the
provider store). -/
theorem handleAnnotations_inv (b : Backend) (cfg : Config) (dest : String)
    (svc : Service) (st : EngineState) (o : Outcome)
    (hm : commentMatches (tagFor svc.ns svc.sname) = true)
    (hinv : CacheInv st.cache st.store)
    (h : HandleAnnotations b cfg dest svc st = some o) :
    CacheInv o.state.cache o.state.store := by
  unfold HandleAnnotations at h
  split at h
  · split at h
    · obtain rfl := Option.some.inj h
      exact hinv
    · rename_i zid zc heqz
      dsimp only at h
      split at h
      · split at h
        · exact absurd h (by simp)
        · rename_i httlcase ttl httl
          split at h
          · obtain rfl := Option.some.inj h
            exact hinv
          · rename_i resp calls heqc
            obtain rfl := Option.some.inj h
            intro e he
            rcases mem_insertKV he with rfl | he'
            · obtain ⟨hn, hcom⟩ := createRecord_some b cfg _ dest ttl zid svc
                resp calls heqc
              refine ⟨?_, hn, ⟨(zid, resp), List.mem_cons_self _ _, rfl⟩⟩
              rcases hcom with hcom | hcom
              · rw [hcom]; exact hm
              · rw [hcom]; exact marker_matches
            · obtain ⟨h1, h2, q, hq, hq2⟩ := hinv e he'
              exact ⟨h1, h2, q, List.mem_cons_of_mem _ hq, hq2⟩
      · split at h
        · obtain rfl := Option.some.inj h
          exact hinv
        · obtain rfl := Option.some.inj h
          exact hinv
  · obtain rfl := Option.some.inj h
    exact hinv

/-- From distinct cached record ids: two cache entries whose records share
an id are the same entry. -/
theorem cache_id_inj {c : List (String × RecordResponse)}
    (hnd : NodupIDs c) {e e' : String × RecordResponse}
    (he : e ∈ c) (he' : e' ∈ c) (hid : e.2.id = e'.2.id) : e = e' :=
  List.inj_on_of_nodup_map hnd he he' hid

/-- HandleDeletions preserves the cache invariant: the only mutation
evicts the entry whose record was just deleted at the provider, and every
other entry's provider record (which has a different id) survives. -/
theorem handleDeletions_inv (b : Backend) (svc : Service) (st : EngineState)
    (hinv : CacheInv st.cache st.store) (hnd : NodupIDs st.cache) :
    CacheInv (HandleDeletions b svc st).state.cache
      (HandleDeletions b svc st).state.store := by
  unfold HandleDeletions
  split
  · split
    · exact hinv
    · rename_i zid zc heqz
      dsimp only
      split
      · rename_i r heqr
        split
        · exact hinv
        · split
          · rename_i hcom hdel
            intro e he
            have hef := List.mem_filter.mp he
            obtain ⟨h1, h2, q, hq, hq2⟩ := hinv e hef.1
            refine ⟨h1, h2, q, List.mem_filter.mpr ⟨hq, ?_⟩, hq2⟩
            have hmemr : (getAnn svc.annots "greydns.io/domain", r) ∈ st.cache :=
              lookup_mem heqr
            have hrname : r.name = getAnn svc.annots "greydns.io/domain" :=
              (hinv _ hmemr).2.1
            have hene : e.1 ≠ getAnn svc.annots "greydns.io/domain" := by
              simpa using hef.2
            have hidne : e.2.id ≠ r.id := by
              intro hid
              have := cache_id_inj hnd hef.1 hmemr hid
              exact hene (congrArg Prod.fst this)
            simpa [bne] using fun hqq => hidne (by rw [hq2] at hqq; exact hqq)
          · exact hinv
      · exact hinv
  · exact hinv

/-- The legacy cleanup walk preserves the cache invariant: every eviction
pairs a provider deletion keyed by the evicted record's id, and any
surviving entry's provider record (a different id, by distinctness over
the original cache c0) survives the store removal. -/
theorem cleanupLegacy_inv_aux (b : Backend) (svc : Service) (zid : String)
    (c0 : List (String × RecordResponse))
    (hnd : NodupIDs c0) (hkm : ∀ e ∈ c0, e.2.name = e.1) :
    ∀ (todo : List (String × RecordResponse)) (st : EngineState),
      (∀ e ∈ todo, e ∈ c0) → (∀ e ∈ st.cache, e ∈ c0) →
      CacheInv st.cache st.store →
      (∀ e ∈ (CleanupRecords b svc zid todo st).1.cache, e ∈ c0) ∧
      CacheInv (CleanupRecords b svc zid todo st).1.cache
        (CleanupRecords b svc zid todo st).1.store := by
  intro todo
  induction todo with
  | nil => intro st _ hsub hinv; exact ⟨hsub, hinv⟩
  | cons hd tl ih =>
    obtain ⟨k, r⟩ := hd
    intro st htodo hsub hinv
    by_cases hg1 : r.comment = tagFor svc.ns svc.sname
    · by_cases hg2 : getAnn svc.annots "greydns.io/domain" = r.name
      · simp only [CleanupRecords, if_pos hg1, if_pos hg2]
        exact ih st (fun e he => htodo e (List.mem_cons_of_mem _ he)) hsub hinv
      · simp only [CleanupRecords, if_pos hg1, if_neg hg2]
        refine ih _ (fun e he => htodo e (List.mem_cons_of_mem _ he)) ?_ ?_
        · intro e he
          exact hsub e (List.mem_filter.mp he).1
        · intro e he
          have hef := List.mem_filter.mp he
          obtain ⟨h1, h2, q, hq, hq2⟩ := hinv e hef.1
          refine ⟨h1, h2, q, ?_, hq2⟩
          by_cases hdel : b.deleteOk r.id = true
          · rw [if_pos hdel]
            refine List.mem_filter.mpr ⟨hq, ?_⟩
            have hkr : (k, r) ∈ c0 := htodo (k, r) (List.mem_cons_self _ _)
            have hrname : r.name = k := hkm (k, r) hkr
            have hene : e.1 ≠ r.name := by simpa using hef.2
            have hne2 : e ≠ (k, r) := by
              intro hcontra
              have he1 : e.1 = k := congrArg Prod.fst hcontra
              exact hene (he1.trans hrname.symm)
            have hidne : e.2.id ≠ r.id := fun hid =>
              hne2 (cache_id_inj hnd (hsub e hef.1) hkr hid)
            exact bne_iff_ne.mpr (by rw [hq2]; exact hidne)
          · rw [if_neg hdel]
            exact hq
    · simp only [CleanupRecords, if_neg hg1]
      exact ih st (fun e he => htodo e (List.mem_cons_of_mem _ he)) hsub hinv

/-- Claim C2: every entry of the record cache corresponds to a record that
exists at the provider with an ownership-pattern comment; records whose
comment does not match the pattern are never admitted (filtered during
the provider-interface listing and during the legacy full refresh), and
the invariant is preserved by every cache mutation the engine performs
(create-and-insert, owner delete-and-evict) and by the provider cleanup
walk. -/
theorem greydns_C2 :
    (∀ (b : Backend) (p : List (String × RecordResponse)) (zid : String)
        (m : List (String × DNSRecord)),
      CF.GetRecords b p zid = some m → CacheInvNew m p) ∧
    (∀ (b : Backend) (p : List (String × RecordResponse))
        (zs : List (String × String)) (acc c : List (String × RecordResponse)),
      CacheInv acc p → RefreshRecordsCacheLegacy b p zs acc = some c →
      CacheInv c p) ∧
    (∀ (b : Backend) (cfg : Config) (dest : String) (svc : Service)
        (st : EngineState) (o : Outcome),
      commentMatches (tagFor svc.ns svc.sname) = true →
      CacheInv st.cache st.store →
      HandleAnnotations b cfg dest svc st = some o →
      CacheInv o.state.cache o.state.store) ∧
    (∀ (b : Backend) (svc : Service) (st : EngineState),
      CacheInv st.cache st.store → NodupIDs st.cache →
      CacheInv (HandleDeletions b svc st).state.cache
        (HandleDeletions b svc st).state.store) ∧
    (∀ (b : Backend) (svc : Service) (zid : String) (st : EngineState),
      CacheInv st.cache st.store → NodupIDs st.cache →
      CacheInv (CleanupRecords b svc zid st.cache st).1.cache
        (CleanupRecords b svc zid st.cache st).1.store) := by
  refine ⟨getRecords_inv, fun b p => refreshLegacy_inv b p, ?_, ?_, ?_⟩
  · intro b cfg dest svc st o hm hinv h
    exact handleAnnotations_inv b cfg dest svc st o hm hinv h
  · intro b svc st hinv hnd
    exact handleDeletions_inv b svc st hinv hnd
  · intro b svc zid st hinv hnd
    exact (cleanupLegacy_inv_aux b svc zid st.cache hnd
      (fun e he => (hinv e he).2.1) st.cache st (fun e he => he)
      (fun e he => he) hinv).2

/-- Witness for C2: the invariant holds after svc-a's successful owner
delete over a concrete invariant-satisfying state. -/
theorem greydns_C2_witness :
    CacheInv (HandleDeletions bOK svcA stWithA).state.cache
      (HandleDeletions bOK svcA stWithA).state.store :=
  greydns_C2.2.2.2.1 bOK svcA stWithA
    (by unfold CacheInv; decide) (by unfold NodupIDs; decide)
